import Mathlib

/-!
Shallow embedding of the vector-store layer of the `rag-foundation-exercise`
repository (files `src/vector_store/sparse_vector_store.py` and
`src/vector_store/semantic_vector_store.py`), together with theorems settling
the specification claims about it.

Modelling conventions:
* Python/numpy floats are modelled as exact rationals (every runtime float is a
  rational number).  Float division by zero, which numpy turns into a
  non-numeric value (NaN/inf) rather than an exception, is modelled by
  `Option ℚ` with `none` standing for the non-numeric outcome; Python integer
  division by zero, which raises `ZeroDivisionError`, is modelled by an
  `Option`-valued function returning `none`.
* The external black boxes — the BERT tokenizer, the sentence-transformer
  embedding model, and the float `sqrt`/`log` primitives used by
  `np.linalg.norm` and `np.log` — are parameters (`tok`, `embed`, `npSqrt`,
  `npLog`) of the definitions, exactly as the spec treats them.
* Python `dict` (insertion ordered) is an association list: inserting an
  existing key replaces its value in place, a fresh key is appended.
* `np.argsort` (ascending) followed by `[::-1]` is modelled with a stable
  ascending insertion sort on (index, score) pairs followed by `List.reverse`;
  Python's stable `sorted(..., reverse=True)` is modelled with a stable
  descending insertion sort.
-/

/-- Modelled from the spec: `src/vector_store/node.py` is not part of the
given sources.  §3 DATA MODEL: a node has a string `id`, the indexed `text`,
an open string-keyed `metadata` mapping and an optional embedding vector of
floats. -/
structure TextNode where
  id_ : String
  text : String
  embedding : Option (List ℚ) := none
  metadata : List (String × String) := []
deriving DecidableEq

/-- Modelled from the spec: `src/vector_store/node.py` is not part of the
given sources.  §3 DATA MODEL: three parallel sequences of ranked nodes,
scores and ids.  The id type is a parameter because the dense engine returns
string ids while the sparse engine returns numpy integer positions. -/
structure VectorStoreQueryResult (α : Type) where
  nodes : List TextNode
  similarities : List ℚ
  ids : List α
deriving DecidableEq

/-- Association-list lookup, modelling Python `dict.get` / `dict[k]`
(keys inserted by `dictInsert` are unique, so the first match is the
match). -/
def alookup {β : Type} : List (String × β) → String → Option β
  | [], _ => none
  | (k', v) :: t, k => if k' = k then some v else alookup t k

/-- The node map `self.node_dict` of `BaseVectorStore`: an insertion-ordered
Python dict from id to node. -/
abbrev NodeDict : Type := List (String × TextNode)

/-- Python dict insertion `self.node_dict[node.id_] = node`: an existing key
keeps its position and gets the new value, a fresh key is appended at the
end. -/
def dictInsert : NodeDict → String → TextNode → NodeDict
  | [], k, v => [(k, v)]
  | (k', v') :: t, k, v => if k' = k then (k, v) :: t else (k', v') :: dictInsert t k v

/-- Dict lookup on the node map. -/
def dictGet (m : NodeDict) (k : String) : Option TextNode :=
  alookup m k

/-- `self.node_dict.values()` in insertion order. -/
def dictValues (m : NodeDict) : List TextNode :=
  m.map Prod.snd

/-- `self.node_dict.keys()` in insertion order. -/
def dictKeys (m : NodeDict) : List String :=
  m.map Prod.fst

/-- `get` of both stores (`SemanticVectorStore.get` /
`SparseVectorStore.get`, identical code): `self.node_dict[text_id]` with the
`KeyError` caught, logged, and turned into `None`. -/
def storeGet (m : NodeDict) (text_id : String) : Option TextNode :=
  dictGet m text_id

/-- BM25 hyperparameter `k1: float = Field(default=1.2)`. -/
def k1 : ℚ := 1.2

/-- BM25 hyperparameter `b: float = Field(default=0.75)`. -/
def b : ℚ := 0.75

/-- BM25 hyperparameter `delta: float = Field(default=0.25)`. -/
def delta : ℚ := 0.25

/-- The six derived-index fields of `SparseVectorStore` that
`_initialize_bm25_assets` computes and the JSON sidecar persists
(`corpus_size`, `avgdl`, `doc_freqs`, `idf`, `doc_len`, `nd`). -/
structure BM25Stats where
  corpus_size : ℕ
  avgdl : ℚ
  doc_freqs : List (List (String × ℕ))
  idf : List (String × ℚ)
  doc_len : List ℕ
  nd : ℕ
deriving DecidableEq

/-- One step of the `frequencies` / `nd` accumulation loops: bump the count of
`w`, starting it at `1` if absent (`if word not in frequencies: ... += 1`,
resp. `try: nd[word] += 1 except KeyError: nd[word] = 1`). -/
def incr : List (String × ℕ) → String → List (String × ℕ)
  | [], w => [(w, 1)]
  | (k, c) :: t, w => if k = w then (k, c + 1) :: t else (k, c) :: incr t w

/-- Fold `incr` over a list of words. -/
def foldIncr (m : List (String × ℕ)) (ws : List String) : List (String × ℕ) :=
  ws.foldl incr m

/-- The per-document term-frequency dict built by the inner loop of
`_initialize`. -/
def freqMap (document : List String) : List (String × ℕ) :=
  foldIncr [] document

/-- The `nd` accumulator of `_initialize`: for every document, bump each
distinct word of that document (iteration over `frequencies.items()`) once. -/
def ndMap (corpus : List (List String)) : List (String × ℕ) :=
  corpus.foldl (fun m document => foldIncr m ((freqMap document).map Prod.fst)) []

/-- `SparseVectorStore._calculate_idf`:
`np.log((corpus_size - doc_count + 0.5) / (doc_count + 0.5) + 1)`, with the
float `np.log` abstracted as the parameter `npLog`. -/
def calculate_idf (npLog : ℚ → ℚ) (doc_count corpus_size : ℕ) : ℚ :=
  npLog (((corpus_size : ℚ) - (doc_count : ℚ) + 0.5) / ((doc_count : ℚ) + 0.5) + 1)

/-- `SparseVectorStore._initialize` run on the (cleared) fields that
`_initialize_bm25_assets` has just reset.  The source computes
`self.avgdl = num_doc / self.corpus_size` with Python integers; when the
corpus is empty this is `0 / 0` and raises `ZeroDivisionError`, modelled as
`none`.  The local `nd` dict of the source is only used to build `idf`;
`self.nd` is never reassigned and keeps the reset value `0`. -/
def initStats (npLog : ℚ → ℚ) (corpus : List (List String)) : Option BM25Stats :=
  let doc_len := corpus.map List.length
  let num_doc := doc_len.sum
  let doc_freqs := corpus.map freqMap
  let nd := ndMap corpus
  if corpus.length = 0 then none
  else some
    { corpus_size := corpus.length
      avgdl := (num_doc : ℚ) / (corpus.length : ℚ)
      doc_freqs := doc_freqs
      idf := nd.map (fun p => (p.1, calculate_idf npLog p.2 corpus.length))
      doc_len := doc_len
      nd := 0 }

/-- `SparseVectorStore`: the node map plus the BM25 derived-index fields. -/
structure SparseVectorStore where
  node_dict : NodeDict
  stats : BM25Stats
deriving DecidableEq

/-- A sparse store constructed with no nodes: `__init__` skips
`_initialize_bm25_assets` entirely when `len(self.node_dict) == 0`, leaving
every field at its pydantic default. -/
def emptySparse : SparseVectorStore :=
  { node_dict := [], stats := { corpus_size := 0, avgdl := 0, doc_freqs := [], idf := [], doc_len := [], nd := 0 } }

/-- `SparseVectorStore._initialize_bm25_assets`: clear the six fields, build
the corpus from the node map values in order (`_tokenize_text` maps the
tokenizer over the texts, merged back in original document order), and run
`_initialize`. -/
def initBm25Assets (npLog : ℚ → ℚ) (tok : String → List String)
    (node_dict : NodeDict) : Option BM25Stats :=
  initStats npLog ((dictValues node_dict).map (fun node => tok node.text))

/-- `SparseVectorStore.add`: insert every node into the node map by id, then
fully rebuild the BM25 assets; returns the ids of the added nodes in input
order.  `none` models the `ZeroDivisionError` escaping from the rebuild. -/
def addSparse (st : SparseVectorStore) (tok : String → List String)
    (npLog : ℚ → ℚ) (nodes : List TextNode) :
    Option (SparseVectorStore × List String) :=
  let nd' := nodes.foldl (fun m node => dictInsert m node.id_ node) st.node_dict
  (initBm25Assets npLog tok nd').map
    (fun stats => ({ node_dict := nd', stats := stats }, nodes.map (fun node => node.id_)))

/-- `SparseVectorStore.get_scores`.  `score` starts as
`np.zeros(self.corpus_size)` and, for every token `q` of the tokenized query,
is incremented elementwise by
`(self.idf.get(q) or 0) * (k1+1) * (ctd + delta) / (k1 + ctd + delta)` where
`ctd = q_freq / (1 - b + b * doc_len / avgdl)` and
`q_freq = [(doc.get(q) or 0) for doc in self.doc_freqs]`.
(`x or 0` returns `0` exactly when the stored float is `0.0` or the key is
absent, so it agrees with `Option.getD 0`.) -/
def get_scores (st : BM25Stats) (tok : String → List String) (query : String) : List ℚ :=
  (tok query).foldl
    (fun score q =>
      let q_freq : List ℚ := st.doc_freqs.map (fun doc => (((alookup doc q).getD 0 : ℕ) : ℚ))
      let ctd : List ℚ :=
        List.zipWith (fun f dl => f / (1 - b + b * dl / st.avgdl)) q_freq
          (st.doc_len.map (fun (n : ℕ) => (n : ℚ)))
      List.zipWith
        (fun s c => s + ((alookup st.idf q).getD 0) * (k1 + 1) * (c + delta) / (k1 + c + delta))
        score ctd)
    (List.replicate st.corpus_size 0)

/-- Comparison used to model `np.argsort` on (index, score) pairs: ascending
by score; on ties the stable sort keeps ascending index order. -/
def ascPairLE (p q : ℕ × ℚ) : Prop := p.2 ≤ q.2

instance : DecidableRel ascPairLE := fun p q => inferInstanceAs (Decidable (p.2 ≤ q.2))

instance : IsTotal (ℕ × ℚ) ascPairLE := ⟨fun p q => le_total p.2 q.2⟩

instance : IsTrans (ℕ × ℚ) ascPairLE := ⟨fun _ _ _ h1 h2 => le_trans h1 h2⟩

/-- Comparison used to model Python `sorted(..., key=lambda t: t[0],
reverse=True)` on (similarity, id) pairs: descending by similarity; the
stable sort keeps ties in their original order. -/
def descPairLE (p q : ℚ × String) : Prop := q.1 ≤ p.1

instance : DecidableRel descPairLE := fun p q => inferInstanceAs (Decidable (q.1 ≤ p.1))

instance : IsTotal (ℚ × String) descPairLE := ⟨fun p q => le_total q.1 p.1⟩

instance : IsTrans (ℚ × String) descPairLE := ⟨fun _ _ _ h1 h2 => le_trans h2 h1⟩

/-- `np.argsort(scores)`: the indices of `scores` sorted by score ascending.
numpy's sort is modelled as stable (ties keep ascending index order), which
matches the insertion sort numpy uses on small inputs. -/
def argsortAsc (scores : List ℚ) : List ℕ :=
  (List.insertionSort ascPairLE
    ((List.range scores.length).map (fun i => (i, scores.getD i 0)))).map Prod.fst

/-- `np.argsort(scores)[::-1]`. -/
def argsortDesc (scores : List ℚ) : List ℕ :=
  (argsortAsc scores).reverse

/-- `SparseVectorStore.query`: rank all positions by score descending, keep
the first `top_k`, and map every position `p` back to a node by looking up
`self.node_dict[str(doc_id)]` — the stringified zero-based corpus position.
A missing key raises `KeyError` in the source, modelled as `none`. -/
def sparseQuery (st : SparseVectorStore) (tok : String → List String)
    (query : String) (top_k : ℕ) : Option (VectorStoreQueryResult ℕ) :=
  let scores := get_scores st.stats tok query
  let doc_ids := (argsortDesc scores).take top_k
  (doc_ids.mapM (fun p => dictGet st.node_dict (toString p))).map
    (fun nodes =>
      { nodes := nodes
        similarities := doc_ids.map (fun p => scores.getD p 0)
        ids := doc_ids })

/-- `SparseVectorStore.batch_query`: independent per-text queries. -/
def sparseBatchQuery (st : SparseVectorStore) (tok : String → List String)
    (queries : List String) (top_k : ℕ) : List (Option (VectorStoreQueryResult ℕ)) :=
  queries.map (fun q => sparseQuery st tok q top_k)

/-- `SemanticVectorStore`: only the node map matters for the modelled
operations (the embedding model is a class-scoped external collaborator). -/
structure SemanticVectorStore where
  node_dict : NodeDict
deriving DecidableEq

/-- The per-node half of `SemanticVectorStore.add`: a node lacking an
embedding gets one computed from its text (the source assigns
`node.embedding = self._get_text_embedding(node.text)` in place, so after the
call the caller's node object *is* this filled node). -/
def fillEmbedding (embed : String → List ℚ) (node : TextNode) : TextNode :=
  match node.embedding with
  | some _ => node
  | none => { node with embedding := some (embed node.text) }

/-- `SemanticVectorStore.add`: fill missing embeddings, insert by id, rewrite
the CSV snapshot, return ids in input order. -/
def addDense (sd : SemanticVectorStore) (embed : String → List ℚ)
    (nodes : List TextNode) : SemanticVectorStore × List String :=
  ({ node_dict :=
      nodes.foldl (fun m node => dictInsert m node.id_ (fillEmbedding embed node))
        sd.node_dict },
   nodes.map (fun node => node.id_))

/-- Removal of a key from the node map (`del self.node_dict[node_id]`). -/
def eraseKey (m : NodeDict) (k : String) : NodeDict :=
  m.filter (fun p => p.1 ≠ k)

/-- `SemanticVectorStore.delete`: when the id is present, remove it and
rewrite the CSV snapshot (the boolean records whether `_update_csv` ran);
otherwise only log the miss.  -/
def denseDelete (sd : SemanticVectorStore) (node_id : String) :
    SemanticVectorStore × Bool :=
  if (dictGet sd.node_dict node_id).isSome then
    ({ node_dict := eraseKey sd.node_dict node_id }, true)
  else
    (sd, false)

/-- Sum of squares of a vector, so that `np.linalg.norm v = npSqrt (sumSq v)`
with `npSqrt` the float square root. -/
def sumSq (v : List ℚ) : ℚ :=
  (v.map (fun x => x * x)).sum

/-- `np.dot` of two equal-length float vectors. -/
def dotQ (v w : List ℚ) : ℚ :=
  (List.zipWith (fun x y => x * y) v w).sum

/-- The `cos_sim_arr` of `SemanticVectorStore._calculate_similarity`:
`np.dot(dembed_np, qembed_np) / (np.linalg.norm(qembed_np) * np.linalg.norm(dembed_np, axis=1))`.
There is no zero-norm guard in the source: when the denominator is the float
`0.0`, numpy's division produces a non-numeric value (`0.0/0.0` is NaN), which
is modelled as `none`. -/
def cosSimArr (npSqrt : ℚ → ℚ) (query_embedding : List ℚ)
    (doc_embeddings : List (List ℚ)) : List (Option ℚ) :=
  doc_embeddings.map (fun d =>
    let den := npSqrt (sumSq query_embedding) * npSqrt (sumSq d)
    if den = 0 then none else some (dotQ d query_embedding / den))

/-- The sort in `_calculate_similarity`:
`sorted([(cos_sim_arr[i], doc_ids[i]) ...], key=lambda t: t[0], reverse=True)`.
Python's sort is stable and `reverse=True` keeps equal keys in their original
relative order, which is exactly a stable descending insertion sort. -/
def sortByScoreDesc (l : List (ℚ × String)) : List (ℚ × String) :=
  List.insertionSort descPairLE l

/-- `SemanticVectorStore._calculate_similarity`.  When every cosine is
numeric it returns the scores and ids of the `similarity_top_k` best pairs;
when some cosine is NaN (zero-norm query or document) the numeric result of
the source is garbage driven by NaN comparisons, modelled as `none`. -/
def calculate_similarity (npSqrt : ℚ → ℚ) (query_embedding : List ℚ)
    (doc_embeddings : List (List ℚ)) (doc_ids : List String)
    (similarity_top_k : ℕ) : Option (List ℚ × List String) :=
  ((cosSimArr npSqrt query_embedding doc_embeddings).mapM id).map
    (fun cos_sims =>
      let sorted_tups := (sortByScoreDesc (List.zip cos_sims doc_ids)).take similarity_top_k
      (sorted_tups.map Prod.fst, sorted_tups.map Prod.snd))

/-- `SemanticVectorStore.query`: embed the query, collect all stored
embeddings and ids in node-map order, answer the empty result on an empty
store, otherwise rank by cosine similarity and look the returned ids back up
in the node map. -/
def denseQuery (sd : SemanticVectorStore) (embed : String → List ℚ)
    (npSqrt : ℚ → ℚ) (query : String) (top_k : ℕ) :
    Option (VectorStoreQueryResult String) :=
  let query_embedding := embed query
  let doc_embeddings := (dictValues sd.node_dict).map (fun node => node.embedding.getD [])
  let doc_ids := dictKeys sd.node_dict
  if doc_embeddings.length = 0 then
    some { nodes := [], similarities := [], ids := [] }
  else
    (calculate_similarity npSqrt query_embedding doc_embeddings doc_ids top_k).bind
      (fun p =>
        ((p.2).mapM (fun node_id => dictGet sd.node_dict node_id)).map
          (fun result_nodes =>
            { nodes := result_nodes, similarities := p.1, ids := p.2 }))

/-- `SemanticVectorStore.batch_query`: independent per-text queries. -/
def denseBatchQuery (sd : SemanticVectorStore) (embed : String → List ℚ)
    (npSqrt : ℚ → ℚ) (queries : List String) (top_k : ℕ) :
    List (Option (VectorStoreQueryResult String)) :=
  queries.map (fun q => denseQuery sd embed npSqrt q top_k)

/-- JSON values as `json.dump`/`json.load` see them, restricted to the shapes
the sparse sidecar uses.  Python serializes `int` and `float` distinctly and
parses them back as `int` resp. `float`; both round-trip exactly. -/
inductive JValue where
  | jint (z : ℤ)
  | jnum (q : ℚ)
  | jarr (xs : List JValue)
  | jobj (kvs : List (String × JValue))

/-- Read a JSON integer back as a Python non-negative int. -/
def asNat : JValue → Option ℕ
  | .jint z => if 0 ≤ z then some z.toNat else none
  | _ => none

/-- Read a JSON float back as a Python float. -/
def asNum : JValue → Option ℚ
  | .jnum q => some q
  | _ => none

/-- Read a JSON array. -/
def asArr : JValue → Option (List JValue)
  | .jarr xs => some xs
  | _ => none

/-- Read a JSON object. -/
def asObj : JValue → Option (List (String × JValue))
  | .jobj kvs => some kvs
  | _ => none

/-- Generic association lookup for JSON objects (the parsed Python dict). -/
def jlookup : List (String × JValue) → String → Option JValue
  | [], _ => none
  | (k', v) :: t, k => if k' = k then some v else jlookup t k

/-- Serialization of one per-document term-frequency dict: string keys with
Python int values. -/
def encodeFreqMap (fm : List (String × ℕ)) : JValue :=
  .jobj (fm.map (fun p => (p.1, JValue.jint (p.2 : ℤ))))

/-- The `content` dict that `_initialize_bm25_assets` passes to `json.dump`:
the six derived fields keyed by name.  Counts and sizes are Python ints,
`avgdl` and the idf values are floats. -/
def encodeSidecar (st : BM25Stats) : JValue :=
  .jobj
    [("corpus_size", .jint (st.corpus_size : ℤ)),
     ("avgdl", .jnum st.avgdl),
     ("doc_freqs", .jarr (st.doc_freqs.map encodeFreqMap)),
     ("idf", .jobj (st.idf.map (fun p => (p.1, JValue.jnum p.2)))),
     ("doc_len", .jarr (st.doc_len.map (fun (n : ℕ) => .jint (n : ℤ)))),
     ("nd", .jint (st.nd : ℤ))]

/-- Deserialization of one term-frequency entry. -/
def decodeFreqEntry (p : String × JValue) : Option (String × ℕ) :=
  (asNat p.2).map (fun n => (p.1, n))

/-- Deserialization of one per-document term-frequency dict. -/
def decodeFreqMap (v : JValue) : Option (List (String × ℕ)) :=
  (asObj v).bind (fun fm => fm.mapM decodeFreqEntry)

/-- Deserialization of one idf entry. -/
def decodeIdfEntry (p : String × JValue) : Option (String × ℚ) :=
  (asNum p.2).map (fun q => (p.1, q))

/-- `SparseVectorStore._load_from_json`: read the parsed sidecar back into
the six fields (`content["corpus_size"]` and so on, in source order); a
missing key or an unexpected shape raises in Python, modelled as `none`. -/
def decodeSidecar (j : JValue) : Option BM25Stats :=
  (asObj j).bind (fun kvs =>
    match (jlookup kvs "corpus_size").bind asNat,
          (jlookup kvs "avgdl").bind asNum,
          ((jlookup kvs "doc_freqs").bind asArr).bind (fun l => l.mapM decodeFreqMap),
          ((jlookup kvs "idf").bind asObj).bind (fun l => l.mapM decodeIdfEntry),
          ((jlookup kvs "doc_len").bind asArr).bind (fun l => l.mapM asNat),
          (jlookup kvs "nd").bind asNat with
    | some corpus_size, some avgdl, some doc_freqs, some idf, some doc_len, some nd =>
      some { corpus_size := corpus_size, avgdl := avgdl, doc_freqs := doc_freqs,
             idf := idf, doc_len := doc_len, nd := nd }
    | _, _, _, _, _, _ => none)

/-! ### Helper lemmas -/

theorem foldl_nil_of_step {α β : Type} (f : List α → β → List α)
    (hf : ∀ x, f [] x = []) : ∀ l : List β, l.foldl f [] = []
  | [] => rfl
  | x :: xs => by rw [List.foldl_cons, hf, foldl_nil_of_step f hf xs]

theorem get_scores_empty_stats (tok : String → List String) (query : String) :
    get_scores emptySparse.stats tok query = [] := by
  unfold get_scores emptySparse
  exact foldl_nil_of_step _ (fun x => by simp) (tok query)

theorem alookup_eq_none_of_not_mem {β : Type} (m : List (String × β)) (k : String)
    (h : k ∉ m.map Prod.fst) : alookup m k = none := by
  induction m with
  | nil => rfl
  | cons p t ih =>
    simp only [List.map_cons, List.mem_cons] at h
    push_neg at h
    simp only [alookup]
    rw [if_neg (Ne.symm h.1), ih h.2]

theorem dictGet_dictInsert_self (m : NodeDict) (k : String) (v : TextNode) :
    dictGet (dictInsert m k v) k = some v := by
  induction m with
  | nil => simp [dictInsert, dictGet, alookup]
  | cons p t ih =>
    by_cases hk : p.1 = k
    · simp [dictInsert, hk, dictGet, alookup]
    · simpa [dictInsert, hk, dictGet, alookup] using ih

theorem dictInsert_ne_nil (m : NodeDict) (k : String) (v : TextNode) :
    dictInsert m k v ≠ [] := by
  cases m with
  | nil => simp [dictInsert]
  | cons p t =>
    by_cases hk : p.1 = k <;> simp [dictInsert, hk]

theorem mapM_map_eq_some {α β γ : Type} (enc : α → β) (dec : β → Option γ)
    (e : α → γ) (h : ∀ a, dec (enc a) = some (e a)) :
    ∀ l : List α, (l.map enc).mapM dec = some (l.map e) := by
  intro l
  induction l with
  | nil => rfl
  | cons x xs ih =>
    rw [List.map_cons, List.map_cons, List.mapM_cons, h, ih]
    rfl

/-! ### C2, C3: missing numeric-degeneracy guards -/

/-- C2. The claim states that a zero-norm query or document vector must get
cosine similarity exactly 0 and no non-numeric score.  The source has no such
guard: `cos_sim_arr = dproduct_arr / norm_arr` divides by the float `0.0`
whenever a norm is zero, and numpy produces NaN (`0.0/0.0`), not 0.  At the
concrete failing input — query embedding `[0]` (zero norm), one stored
document with embedding `[1]` — the similarity is the non-numeric `none`, not
`some 0`, and the whole similarity computation degenerates.  (`fun x => x`
agrees with the float square root at the only two points used, `0` and
`1`.) -/
theorem c2_zero_norm_yields_nan :
    cosSimArr (fun x => x) [0] [[1]] = [none] ∧
    calculate_similarity (fun x => x) [0] [[1]] ["0"] 3 = none ∧
    ([none] : List (Option ℚ)) ≠ [some 0] := by
  have h1 : cosSimArr (fun x => x) [0] [[1]] = [none] := by
    norm_num [cosSimArr, sumSq, dotQ]
  refine ⟨h1, ?_, by decide⟩
  simp [calculate_similarity, h1]
  rfl

/-- C3. The claim states that the avgdl computation is guarded against a
zero-size corpus and that `add([])` on an empty sparse store completes.  The
source computes `self.avgdl = num_doc / self.corpus_size` with Python
integers and no guard, so an empty corpus raises `ZeroDivisionError` (`0/0`)
and `add` fails: `_initialize` on the empty corpus, and therefore
`add([])` on a store with no prior nodes, is `none`. -/
theorem c3_empty_corpus_division_fails (tok : String → List String) (npLog : ℚ → ℚ) :
    initStats npLog [] = none ∧ addSparse emptySparse tok npLog [] = none := by
  exact ⟨rfl, rfl⟩

/-! ### C6: querying an empty store -/

/-- C6. A store with zero nodes answers every query with a result whose three
sequences are all empty, with no exception: the dense engine takes its
explicit `len(doc_embeddings) == 0` branch, and the sparse engine (whose
construction skipped `_initialize_bm25_assets`, so `corpus_size = 0`) runs
`get_scores` over empty numpy arrays and ranks nothing. -/
theorem c6_empty_store_query_empty (tok : String → List String)
    (embed : String → List ℚ) (npSqrt : ℚ → ℚ) (query : String) (top_k : ℕ) :
    sparseQuery emptySparse tok query top_k =
      some { nodes := [], similarities := [], ids := [] } ∧
    denseQuery { node_dict := [] } embed npSqrt query top_k =
      some { nodes := [], similarities := [], ids := [] } := by
  constructor
  · unfold sparseQuery
    rw [get_scores_empty_stats]
    simp [argsortDesc, argsortAsc]
    rfl
  · simp [denseQuery, dictValues, dictKeys]

/-! ### C10: deleting a missing id -/

/-- C10. `SemanticVectorStore.delete` with an id absent from the node map
only logs the miss: the store is returned unchanged and the CSV snapshot is
not rewritten (`_update_csv` runs only on the branch that removed a node). -/
theorem c10_delete_missing_noop (sd : SemanticVectorStore) (node_id : String)
    (h : dictGet sd.node_dict node_id = none) :
    denseDelete sd node_id = (sd, false) := by
  unfold denseDelete
  rw [h]
  rfl

/-- Witness for C10 at a concrete store: deleting the absent id `"zz"` from a
one-node store changes nothing and performs no snapshot write. -/
theorem c10_delete_missing_noop_witness :
    denseDelete { node_dict := [("0", { id_ := "0", text := "t" })] } "zz" =
      ({ node_dict := [("0", { id_ := "0", text := "t" })] }, false) :=
  c10_delete_missing_noop _ "zz" (by decide)

/-! ### C8: sidecar persistence round-trip -/

theorem mapM_decodeFreqEntry (fm : List (String × ℕ)) :
    (fm.map (fun p => (p.1, JValue.jint (p.2 : ℤ)))).mapM decodeFreqEntry = some fm := by
  have h := mapM_map_eq_some (fun p : String × ℕ => (p.1, JValue.jint (p.2 : ℤ)))
    decodeFreqEntry id (fun p => by simp [decodeFreqEntry, asNat]) fm
  rwa [List.map_id] at h

theorem mapM_decodeFreqMap (dfs : List (List (String × ℕ))) :
    (dfs.map encodeFreqMap).mapM decodeFreqMap = some dfs := by
  have h := mapM_map_eq_some encodeFreqMap decodeFreqMap id
    (fun fm => by
      simp only [encodeFreqMap, decodeFreqMap, asObj, Option.some_bind]
      exact mapM_decodeFreqEntry fm) dfs
  rwa [List.map_id] at h

theorem mapM_decodeIdfEntry (idf : List (String × ℚ)) :
    (idf.map (fun p => (p.1, JValue.jnum p.2))).mapM decodeIdfEntry = some idf := by
  have h := mapM_map_eq_some (fun p : String × ℚ => (p.1, JValue.jnum p.2))
    decodeIdfEntry id (fun p => by simp [decodeIdfEntry, asNum]) idf
  rwa [List.map_id] at h

theorem mapM_asNat_jint (dl : List ℕ) :
    (dl.map (fun (n : ℕ) => JValue.jint (n : ℤ))).mapM asNat = some dl := by
  have h := mapM_map_eq_some (fun n : ℕ => JValue.jint (n : ℤ)) asNat id
    (fun n => by simp [asNat]) dl
  rwa [List.map_id] at h

theorem decodeSidecar_encodeSidecar (st : BM25Stats) :
    decodeSidecar (encodeSidecar st) = some st := by
  obtain ⟨cs, avgdl, dfs, idf, dl, nd⟩ := st
  simp only [decodeSidecar, encodeSidecar, asObj, Option.some_bind, jlookup,
    String.reduceEq, reduceIte, asNum, asArr, asNat, Int.natCast_nonneg,
    ite_true, Int.toNat_natCast, Option.bind_some, mapM_decodeFreqMap,
    mapM_decodeIdfEntry, mapM_asNat_jint]

/-- C8. Rebuilding the derived index over a corpus, serializing the six
fields to the sidecar (`json.dump` of the `content` dict) and loading the
sidecar back on a new construction (`_load_from_json`, sidecar present and
`force_index` false) reproduces exactly the `corpus_size`, `avgdl`,
`doc_freqs`, `idf`, `doc_len` and `nd` of the direct from-scratch rebuild. -/
theorem c8_sidecar_reload_eq_rebuild (npLog : ℚ → ℚ) (corpus : List (List String))
    (st : BM25Stats) (_h : initStats npLog corpus = some st) :
    decodeSidecar (encodeSidecar st) = some st :=
  decodeSidecar_encodeSidecar st

/-- Witness for C8: a concrete two-document corpus, rebuilt with a concrete
float log, persists and reloads to the very same statistics. -/
theorem c8_sidecar_reload_eq_rebuild_witness :
    decodeSidecar (encodeSidecar
      { corpus_size := 2, avgdl := 3/2,
        doc_freqs := [[("a", 1), ("c", 1)], [("a", 1)]],
        idf := [("a", 1), ("c", 1)],
        doc_len := [2, 1], nd := 0 }) =
    some
      { corpus_size := 2, avgdl := 3/2,
        doc_freqs := [[("a", 1), ("c", 1)], [("a", 1)]],
        idf := [("a", 1), ("c", 1)],
        doc_len := [2, 1], nd := 0 } :=
  c8_sidecar_reload_eq_rebuild (fun _ => 1) [["a", "c"], ["a"]] _
    (by norm_num [initStats, freqMap, foldIncr, incr, ndMap, calculate_idf] <;> decide)

/-! ### C9: add/get round-trip, get on a missing id -/

theorem dictValues_length (m : NodeDict) : (dictValues m).length = m.length := by
  unfold dictValues
  exact List.length_map m Prod.snd

/-- C9. For every store and node `n`: after `add([n])` the lookup
`get(n.id)` returns the stored node, and `get` on an id absent from the node
map returns `None` (the `KeyError` is caught and logged) without raising.
For the sparse store the stored node is `n` itself.  For the dense store
`add` assigns `node.embedding = ...` in place when the embedding is missing,
so the caller's `n` and the stored node are one object, modelled as
`fillEmbedding embed n`; when `n` already has an embedding this is exactly
`n`. -/
theorem c9_add_get_roundtrip :
    (∀ (st : SparseVectorStore) (tok : String → List String) (npLog : ℚ → ℚ) (n : TextNode),
      (addSparse st tok npLog [n]).map (fun p => storeGet p.1.node_dict n.id_) =
        some (some n))
    ∧ (∀ (sd : SemanticVectorStore) (embed : String → List ℚ) (n : TextNode),
      storeGet ((addDense sd embed [n]).1).node_dict n.id_ = some (fillEmbedding embed n)
      ∧ (n.embedding.isSome → fillEmbedding embed n = n))
    ∧ (∀ (m : NodeDict) (text_id : String), text_id ∉ dictKeys m →
      storeGet m text_id = none) := by
  refine ⟨?_, ?_, ?_⟩
  · intro st tok npLog n
    have hne : dictInsert st.node_dict n.id_ n ≠ [] := dictInsert_ne_nil _ _ _
    have hlen : ((dictValues (dictInsert st.node_dict n.id_ n)).map
        (fun node => tok node.text)).length ≠ 0 := by
      rw [List.length_map, dictValues_length]
      intro h0
      exact hne (List.length_eq_zero.mp h0)
    unfold addSparse initBm25Assets initStats
    simp only [List.foldl_cons, List.foldl_nil, if_neg hlen]
    simp [storeGet, dictGet_dictInsert_self]
  · intro sd embed n
    constructor
    · unfold addDense storeGet
      simp only [List.foldl_cons, List.foldl_nil]
      exact dictGet_dictInsert_self _ _ _
    · intro hs
      unfold fillEmbedding
      cases hemb : n.embedding with
      | some e => rfl
      | none => rw [hemb] at hs; simp at hs
  · intro m text_id h
    unfold storeGet dictGet
    exact alookup_eq_none_of_not_mem m text_id h

/-- Witness for C9 at concrete inputs: a singleton add into a non-empty
sparse store and an empty dense store round-trips through `get`, a node that
already carries an embedding is stored untouched, and `get` of an absent id
answers `None`. -/
theorem c9_add_get_roundtrip_witness :
    (addSparse
      { node_dict := [("7", { id_ := "7", text := "x" })],
        stats := { corpus_size := 1, avgdl := 1, doc_freqs := [[("x", 1)]],
                   idf := [("x", 1)], doc_len := [1], nd := 0 } }
      (fun _ => ["x"]) (fun _ => 1) [{ id_ := "9", text := "y" }]).map
      (fun p => storeGet p.1.node_dict "9") = some (some { id_ := "9", text := "y" })
    ∧ fillEmbedding (fun _ => [5]) { id_ := "e", text := "t", embedding := some [2] } =
      { id_ := "e", text := "t", embedding := some [2] }
    ∧ storeGet [("7", { id_ := "7", text := "x" })] "zz" = none := by
  refine ⟨?_, ?_, ?_⟩
  · have h := c9_add_get_roundtrip.1
      { node_dict := [("7", { id_ := "7", text := "x" })],
        stats := { corpus_size := 1, avgdl := 1, doc_freqs := [[("x", 1)]],
                   idf := [("x", 1)], doc_len := [1], nd := 0 } }
      (fun _ => ["x"]) (fun _ => 1) { id_ := "9", text := "y" }
    simpa using h
  · exact (c9_add_get_roundtrip.2.1 { node_dict := [] } (fun _ => [5]) _).2 (by decide)
  · exact c9_add_get_roundtrip.2.2 _ "zz" (by decide)

/-! ### Stability of the modelled sorts (C5) -/

theorem filter_key_orderedInsert {α : Type} (r : α → α → Prop) [DecidableRel r]
    (f : α → ℚ) (s : ℚ) (x : α) (hr : ∀ y, ¬ r x y → f y ≠ f x) :
    ∀ l : List α, (List.orderedInsert r x l).filter (fun y => decide (f y = s)) =
      if f x = s then x :: l.filter (fun y => decide (f y = s))
      else l.filter (fun y => decide (f y = s))
  | [] => by
    simp only [List.orderedInsert, List.filter]
    by_cases hx : f x = s <;> simp [hx]
  | y :: t => by
    simp only [List.orderedInsert]
    by_cases hxy : r x y
    · rw [if_pos hxy]
      by_cases hx : f x = s <;> simp [List.filter_cons, hx]
    · rw [if_neg hxy]
      have hy : f y ≠ f x := hr y hxy
      have ih := filter_key_orderedInsert r f s x hr t
      by_cases hx : f x = s
      · have hpy : decide (f y = s) = false :=
          decide_eq_false (fun h : f y = s => hy (h.trans hx.symm))
        rw [if_pos hx] at ih ⊢
        simp only [List.filter_cons, hpy, Bool.false_eq_true, if_false, ih]
      · rw [if_neg hx] at ih ⊢
        simp only [List.filter_cons, ih]

theorem filter_key_insertionSort {α : Type} (r : α → α → Prop) [DecidableRel r]
    (f : α → ℚ) (s : ℚ) (hr : ∀ x y, ¬ r x y → f y ≠ f x) :
    ∀ l : List α, (List.insertionSort r l).filter (fun y => decide (f y = s)) =
      l.filter (fun y => decide (f y = s))
  | [] => rfl
  | x :: xs => by
    simp only [List.insertionSort]
    rw [filter_key_orderedInsert r f s x (hr x), filter_key_insertionSort r f s hr xs]
    by_cases hx : f x = s
    · rw [if_pos hx, List.filter_cons, if_pos (by simpa using hx)]
    · rw [if_neg hx, List.filter_cons, if_neg (by simpa using hx)]

theorem mem_argsort_pairs (scores : List ℚ) (q : ℕ × ℚ)
    (hq : q ∈ (List.range scores.length).map (fun i => (i, scores.getD i 0))) :
    q.2 = scores.getD q.1 0 := by
  obtain ⟨i, _, rfl⟩ := List.mem_map.mp hq
  rfl

/-- Tie behaviour of `np.argsort(scores)[::-1]`: among positions with equal
score, positions appear in *descending* index order (the ascending stable
argsort puts them in ascending order, and the `[::-1]` reversal flips
them). -/
theorem argsortDesc_ties_descending (scores : List ℚ) (s : ℚ) :
    (argsortDesc scores).filter (fun i => decide (scores.getD i 0 = s)) =
      ((List.range scores.length).filter
        (fun i => decide (scores.getD i 0 = s))).reverse := by
  unfold argsortDesc argsortAsc
  rw [List.filter_reverse, List.filter_map]
  have hcongr : ∀ T : List (ℕ × ℚ), (∀ q ∈ T, q.2 = scores.getD q.1 0) →
      T.filter ((fun i => decide (scores.getD i 0 = s)) ∘ Prod.fst) =
        T.filter (fun q => decide (q.2 = s)) := by
    intro T hT
    refine List.filter_congr ?_
    intro q hq
    simp [hT q hq]
  rw [hcongr _ (fun q hq => mem_argsort_pairs scores q
      ((List.mem_insertionSort _).mp hq))]
  rw [filter_key_insertionSort ascPairLE Prod.snd s
      (fun x y hxy => ne_of_lt (lt_of_not_le (fun h => hxy h)))]
  rw [← hcongr _ (fun q hq => mem_argsort_pairs scores q hq)]
  rw [← List.filter_map, List.map_map]
  have : (Prod.fst ∘ fun i => (i, scores.getD i 0)) = fun i : ℕ => i := rfl
  rw [this, List.map_id']

/-- C5 (amended).  In both engines candidates are ranked by a stable
descending sort on the score.  Dense: candidates with equal cosine
similarity keep their original iteration order over the node map (the
filtered tie class of the sorted pair list is the tie class of the input
pair list).  Sparse: candidates with equal BM25 score appear in
*descending* positional-index order — not ascending, because the engine
argsorts ascending and then reverses. -/
theorem c5_stable_sort_tiebreak (sims : List ℚ) (ids : List String)
    (scores : List ℚ) (s : ℚ) :
    (sortByScoreDesc (sims.zip ids)).filter (fun p => decide (p.1 = s)) =
      (sims.zip ids).filter (fun p => decide (p.1 = s)) ∧
    (argsortDesc scores).filter (fun i => decide (scores.getD i 0 = s)) =
      ((List.range scores.length).filter
        (fun i => decide (scores.getD i 0 = s))).reverse := by
  constructor
  · exact filter_key_insertionSort descPairLE Prod.fst s
      (fun x y hxy => ne_of_gt (lt_of_not_le (fun h => hxy h))) (sims.zip ids)
  · exact argsortDesc_ties_descending scores s

/-- Counterexample to C5 as stated.  The claim says sparse ties keep
*ascending* positional-index order.  With two identical documents the two
BM25 scores are equal (both `55/49` here), yet `np.argsort(scores)[::-1]`
returns the tied positions as `[1, 0]` — descending, not the ascending
`[0, 1]` that the claim demands — and the query returns the nodes in that
reversed order. -/
theorem c5_sparse_ties_counterexample :
    ¬ ((argsortDesc [(1 : ℚ), 1]).filter (fun i => decide (([(1 : ℚ), 1].getD i 0) = 1)) =
      (List.range 2).filter (fun i => decide (([(1 : ℚ), 1].getD i 0) = 1))) ∧
    sparseQuery
      { node_dict := [("0", { id_ := "0", text := "x" }), ("1", { id_ := "1", text := "x" })],
        stats := { corpus_size := 2, avgdl := 1, doc_freqs := [[("x", 1)], [("x", 1)]],
                   idf := [("x", 1)], doc_len := [1, 1], nd := 0 } }
      (fun _ => ["x"]) "x" 2 =
      some { nodes := [{ id_ := "1", text := "x" }, { id_ := "0", text := "x" }],
             similarities := [55/49, 55/49], ids := [1, 0] } := by
  constructor
  · decide
  · norm_num [sparseQuery, get_scores, argsortDesc, argsortAsc, ascPairLE,
      List.insertionSort, List.orderedInsert, alookup, dictGet, k1, b, delta]
    decide

/-! ### C7: result shape and ordering -/

theorem alookup_incr_getD (w t : String) (m : List (String × ℕ)) :
    (alookup (incr m w) t).getD 0 =
      (alookup m t).getD 0 + (if t = w then 1 else 0) := by
  induction m with
  | nil =>
    by_cases h : t = w
    · subst h
      simp [incr, alookup]
    · have hwt : ¬ w = t := fun he => h he.symm
      simp [incr, alookup, hwt, h]
  | cons p m ih =>
    obtain ⟨k, c⟩ := p
    by_cases hkw : k = w
    · subst hkw
      by_cases hkt : k = t
      · subst hkt
        simp [incr, alookup]
      · have htk : ¬ t = k := fun he => hkt he.symm
        simp [incr, alookup, hkt, htk]
    · by_cases hkt : k = t
      · have htw : ¬ t = w := fun he => hkw (hkt.trans he)
        simp [incr, hkw, alookup, hkt, htw]
      · simp [incr, hkw, alookup, hkt, ih]

theorem alookup_incr_none (w t : String) (m : List (String × ℕ)) :
    alookup (incr m w) t = none ↔ alookup m t = none ∧ ¬ t = w := by
  induction m with
  | nil =>
    by_cases h : t = w
    · subst h
      simp [incr, alookup]
    · have hwt : ¬ w = t := fun he => h he.symm
      simp [incr, alookup, hwt, h]
  | cons p m ih =>
    obtain ⟨k, c⟩ := p
    by_cases hkw : k = w
    · subst hkw
      by_cases hkt : k = t
      · subst hkt
        simp [incr, alookup]
      · have htk : ¬ t = k := fun he => hkt he.symm
        simp [incr, alookup, hkt, htk]
    · by_cases hkt : k = t
      · have htw : ¬ t = w := fun he => hkw (hkt.trans he)
        simp [incr, hkw, alookup, hkt, htw]
      · simp [incr, hkw, alookup, hkt, ih]

theorem alookup_foldIncr_getD (t : String) (ws : List String) :
    ∀ m : List (String × ℕ),
    (alookup (foldIncr m ws) t).getD 0 = (alookup m t).getD 0 + ws.count t := by
  induction ws with
  | nil => intro m; simp [foldIncr]
  | cons w ws ih =>
    intro m
    have hstep : foldIncr m (w :: ws) = foldIncr (incr m w) ws := rfl
    rw [hstep, ih (incr m w), alookup_incr_getD w t m, List.count_cons]
    by_cases h : t = w
    · simp only [h, if_true, beq_self_eq_true]
      omega
    · have hwt : (w == t) = false := beq_eq_false_iff_ne.mpr (fun he => h he.symm)
      simp only [h, if_false, hwt, Bool.false_eq_true]
      omega

theorem alookup_foldIncr_none (t : String) (ws : List String) :
    ∀ m : List (String × ℕ),
    (alookup (foldIncr m ws) t = none ↔ alookup m t = none ∧ t ∉ ws) := by
  induction ws with
  | nil => intro m; simp [foldIncr]
  | cons w ws ih =>
    intro m
    have hstep : foldIncr m (w :: ws) = foldIncr (incr m w) ws := rfl
    rw [hstep, ih (incr m w), alookup_incr_none w t m]
    constructor
    · rintro ⟨⟨h1, h2⟩, h3⟩
      exact ⟨h1, by simp [h2, h3]⟩
    · rintro ⟨h1, h2⟩
      simp only [List.mem_cons, not_or] at h2
      exact ⟨⟨h1, h2.1⟩, h2.2⟩

theorem freqMap_getD (doc : List String) (t : String) :
    (alookup (freqMap doc) t).getD 0 = doc.count t := by
  simpa [freqMap, alookup] using alookup_foldIncr_getD t doc []

theorem freqMap_none (doc : List String) (t : String) :
    alookup (freqMap doc) t = none ↔ t ∉ doc := by
  simpa [freqMap, alookup] using alookup_foldIncr_none t doc []

theorem alookup_eq_none_iff {β : Type} (m : List (String × β)) (t : String) :
    alookup m t = none ↔ t ∉ m.map Prod.fst := by
  induction m with
  | nil => simp [alookup]
  | cons p m ih =>
    by_cases h : p.1 = t
    · simp [alookup, h]
    · have hne : ¬ t = p.1 := fun he => h he.symm
      simp [alookup, h, hne, ih]

theorem mem_keys_incr (m : List (String × ℕ)) (w t : String) :
    t ∈ (incr m w).map Prod.fst ↔ t ∈ m.map Prod.fst ∨ t = w := by
  induction m with
  | nil => simp [incr]
  | cons p m ih =>
    obtain ⟨k, c⟩ := p
    by_cases hkw : k = w
    · subst hkw
      by_cases hkt : t = k <;> simp [incr, hkt]
    · simp [incr, hkw, ih, or_assoc]

theorem nodup_keys_incr (m : List (String × ℕ)) (w : String)
    (h : (m.map Prod.fst).Nodup) : ((incr m w).map Prod.fst).Nodup := by
  induction m with
  | nil => simp [incr]
  | cons p m ih =>
    obtain ⟨k, c⟩ := p
    by_cases hkw : k = w
    · subst hkw
      simpa [incr] using h
    · simp only [List.map_cons, List.nodup_cons] at h
      simp only [incr, if_neg hkw, List.map_cons]
      refine List.nodup_cons.mpr ⟨?_, ih h.2⟩
      rw [mem_keys_incr]
      rintro (hk | hk)
      · exact h.1 hk
      · exact hkw hk

theorem nodup_keys_foldIncr (ws : List String) :
    ∀ m : List (String × ℕ), (m.map Prod.fst).Nodup →
    ((foldIncr m ws).map Prod.fst).Nodup := by
  induction ws with
  | nil => intro m h; exact h
  | cons w ws ih =>
    intro m h
    exact ih (incr m w) (nodup_keys_incr m w h)

theorem nodup_keys_freqMap (doc : List String) :
    ((freqMap doc).map Prod.fst).Nodup :=
  nodup_keys_foldIncr doc [] (by simp)

theorem mem_keys_freqMap (doc : List String) (t : String) :
    t ∈ (freqMap doc).map Prod.fst ↔ t ∈ doc := by
  rw [← not_iff_not, ← alookup_eq_none_iff, freqMap_none]

theorem keys_freqMap_count (doc : List String) (t : String) :
    ((freqMap doc).map Prod.fst).count t = if t ∈ doc then 1 else 0 := by
  by_cases h : t ∈ doc
  · rw [if_pos h]
    exact List.count_eq_one_of_mem (nodup_keys_freqMap doc)
      ((mem_keys_freqMap doc t).mpr h)
  · rw [if_neg h]
    exact List.count_eq_zero_of_not_mem
      (fun hmem => h ((mem_keys_freqMap doc t).mp hmem))

theorem ndMap_foldl_getD (t : String) :
    ∀ (corpus : List (List String)) (m : List (String × ℕ)),
    (alookup (corpus.foldl
      (fun acc document => foldIncr acc ((freqMap document).map Prod.fst)) m) t).getD 0 =
      (alookup m t).getD 0 + corpus.countP (fun doc => decide (t ∈ doc)) := by
  intro corpus
  induction corpus with
  | nil => intro m; simp
  | cons doc rest ih =>
    intro m
    rw [List.foldl_cons, ih, alookup_foldIncr_getD, keys_freqMap_count,
      List.countP_cons]
    by_cases h : t ∈ doc <;> simp [h] <;> omega

theorem ndMap_getD (corpus : List (List String)) (t : String) :
    (alookup (ndMap corpus) t).getD 0 = corpus.countP (fun doc => decide (t ∈ doc)) := by
  unfold ndMap
  rw [ndMap_foldl_getD]
  simp [alookup]

theorem ndMap_foldl_none (t : String) :
    ∀ (corpus : List (List String)) (m : List (String × ℕ)),
    (alookup (corpus.foldl
      (fun acc document => foldIncr acc ((freqMap document).map Prod.fst)) m) t = none ↔
      alookup m t = none ∧ ∀ doc ∈ corpus, t ∉ doc) := by
  intro corpus
  induction corpus with
  | nil => intro m; simp
  | cons doc rest ih =>
    intro m
    rw [List.foldl_cons, ih, alookup_foldIncr_none, mem_keys_freqMap]
    constructor
    · rintro ⟨⟨h1, h2⟩, h3⟩
      exact ⟨h1, by simpa [h2] using h3⟩
    · rintro ⟨h1, h2⟩
      exact ⟨⟨h1, h2 doc (List.mem_cons_self doc rest)⟩,
        fun d hd => h2 d (List.mem_cons_of_mem doc hd)⟩

theorem ndMap_none (corpus : List (List String)) (t : String) :
    alookup (ndMap corpus) t = none ↔
      corpus.countP (fun doc => decide (t ∈ doc)) = 0 := by
  unfold ndMap
  rw [ndMap_foldl_none, List.countP_eq_zero]
  simp [alookup]

theorem alookup_map_snd {β γ : Type} (g : β → γ) (l : List (String × β)) (t : String) :
    alookup (l.map (fun p => (p.1, g p.2))) t = (alookup l t).map g := by
  induction l with
  | nil => simp [alookup]
  | cons p l ih =>
    by_cases h : p.1 = t
    · simp [alookup, h]
    · simp [alookup, h, ih]

theorem get_scores_step_getD (st : BM25Stats) (q : String) (acc : List ℚ) (d : ℕ)
    (hacc : acc.length = st.corpus_size) (hd : d < st.corpus_size)
    (hdf : st.doc_freqs.length = st.corpus_size)
    (hdl : st.doc_len.length = st.corpus_size) :
    (List.zipWith
      (fun s c => s + ((alookup st.idf q).getD 0) * (k1 + 1) * (c + delta) / (k1 + c + delta))
      acc
      (List.zipWith (fun f dl => f / (1 - b + b * dl / st.avgdl))
        (st.doc_freqs.map (fun doc => (((alookup doc q).getD 0 : ℕ) : ℚ)))
        (st.doc_len.map (fun (n : ℕ) => (n : ℚ))))).getD d 0 =
    acc.getD d 0 + (alookup st.idf q).getD 0 * (k1 + 1) *
      (((alookup (st.doc_freqs.getD d []) q).getD 0 : ℚ) /
          (1 - b + b * ((st.doc_len.getD d 0 : ℕ) : ℚ) / st.avgdl) + delta) /
      (k1 + ((alookup (st.doc_freqs.getD d []) q).getD 0 : ℚ) /
          (1 - b + b * ((st.doc_len.getD d 0 : ℕ) : ℚ) / st.avgdl) + delta) := by
  have hdfq : d < (st.doc_freqs.map (fun doc => (((alookup doc q).getD 0 : ℕ) : ℚ))).length := by
    rw [List.length_map, hdf]; exact hd
  have hdlq : d < (st.doc_len.map (fun (n : ℕ) => (n : ℚ))).length := by
    rw [List.length_map, hdl]; exact hd
  have hctd : d < (List.zipWith (fun f dl => f / (1 - b + b * dl / st.avgdl))
      (st.doc_freqs.map (fun doc => (((alookup doc q).getD 0 : ℕ) : ℚ)))
      (st.doc_len.map (fun (n : ℕ) => (n : ℚ)))).length := by
    rw [List.length_zipWith, List.length_map, List.length_map, hdf, hdl, Nat.min_self]
    exact hd
  have hall : d < (List.zipWith
      (fun s c => s + ((alookup st.idf q).getD 0) * (k1 + 1) * (c + delta) / (k1 + c + delta))
      acc
      (List.zipWith (fun f dl => f / (1 - b + b * dl / st.avgdl))
        (st.doc_freqs.map (fun doc => (((alookup doc q).getD 0 : ℕ) : ℚ)))
        (st.doc_len.map (fun (n : ℕ) => (n : ℚ))))).length := by
    rw [List.length_zipWith, hacc]
    rw [List.length_zipWith, List.length_map, List.length_map, hdf, hdl, Nat.min_self,
      Nat.min_self]
    exact hd
  rw [List.getD_eq_getElem _ 0 hall, List.getElem_zipWith, List.getElem_zipWith,
    List.getElem_map, List.getElem_map,
    List.getD_eq_getElem acc 0 (by rw [hacc]; exact hd),
    List.getD_eq_getElem st.doc_freqs [] (by rw [hdf]; exact hd),
    List.getD_eq_getElem st.doc_len 0 (by rw [hdl]; exact hd)]

theorem get_scores_foldl_getD (st : BM25Stats) (d : ℕ) (hd : d < st.corpus_size)
    (hdf : st.doc_freqs.length = st.corpus_size)
    (hdl : st.doc_len.length = st.corpus_size) :
    ∀ (l : List String) (acc : List ℚ), acc.length = st.corpus_size →
    ((l.foldl (fun score q =>
      List.zipWith
        (fun s c => s + ((alookup st.idf q).getD 0) * (k1 + 1) * (c + delta) / (k1 + c + delta))
        score
        (List.zipWith (fun f dl => f / (1 - b + b * dl / st.avgdl))
          (st.doc_freqs.map (fun doc => (((alookup doc q).getD 0 : ℕ) : ℚ)))
          (st.doc_len.map (fun (n : ℕ) => (n : ℚ))))) acc).getD d 0) =
      acc.getD d 0 + (l.map (fun q =>
        (alookup st.idf q).getD 0 * (k1 + 1) *
          (((alookup (st.doc_freqs.getD d []) q).getD 0 : ℚ) /
              (1 - b + b * ((st.doc_len.getD d 0 : ℕ) : ℚ) / st.avgdl) + delta) /
          (k1 + ((alookup (st.doc_freqs.getD d []) q).getD 0 : ℚ) /
              (1 - b + b * ((st.doc_len.getD d 0 : ℕ) : ℚ) / st.avgdl) + delta))).sum := by
  intro l
  induction l with
  | nil => intro acc _; simp
  | cons x xs ih =>
    intro acc hacc
    have hlen : (List.zipWith
        (fun s c => s + ((alookup st.idf x).getD 0) * (k1 + 1) * (c + delta) / (k1 + c + delta))
        acc
        (List.zipWith (fun f dl => f / (1 - b + b * dl / st.avgdl))
          (st.doc_freqs.map (fun doc => (((alookup doc x).getD 0 : ℕ) : ℚ)))
          (st.doc_len.map (fun (n : ℕ) => (n : ℚ))))).length = st.corpus_size := by
      rw [List.length_zipWith, hacc, List.length_zipWith, List.length_map,
        List.length_map, hdf, hdl, Nat.min_self, Nat.min_self]
    rw [List.foldl_cons, ih _ hlen, get_scores_step_getD st x acc d hacc hd hdf hdl,
      List.map_cons, List.sum_cons, add_assoc]

theorem get_scores_getD (st : BM25Stats) (tok : String → List String) (query : String)
    (d : ℕ) (hd : d < st.corpus_size)
    (hdf : st.doc_freqs.length = st.corpus_size)
    (hdl : st.doc_len.length = st.corpus_size) :
    (get_scores st tok query).getD d 0 =
      ((tok query).map (fun q =>
        (alookup st.idf q).getD 0 * (k1 + 1) *
          (((alookup (st.doc_freqs.getD d []) q).getD 0 : ℚ) /
              (1 - b + b * ((st.doc_len.getD d 0 : ℕ) : ℚ) / st.avgdl) + delta) /
          (k1 + ((alookup (st.doc_freqs.getD d []) q).getD 0 : ℚ) /
              (1 - b + b * ((st.doc_len.getD d 0 : ℕ) : ℚ) / st.avgdl) + delta))).sum := by
  have hrep : (List.replicate st.corpus_size (0 : ℚ)).length = st.corpus_size := by
    simp
  have h0 : (List.replicate st.corpus_size (0 : ℚ)).getD d 0 = 0 := by
    rw [List.getD_eq_getElem _ 0 (by rw [hrep]; exact hd), List.getElem_replicate]
  simp only [get_scores]
  rw [get_scores_foldl_getD st d hd hdf hdl (tok query) _ hrep, h0, zero_add]

/-- C4. For a sparse store freshly indexed over a corpus of `N > 0`
documents, the score of document `d` is the sum, over every occurrence of
every token `q` of the tokenized query, of
`idf(q) * (k1+1) * (tf + delta) / (k1 + tf + delta)` with
`tf = freq(q,d) / (1 - b + b * len(d)/avgdl)`,
`idf(q) = npLog((N - df(q) + 0.5)/(df(q) + 0.5) + 1)` for terms occurring in
the corpus (`df` = number of documents containing the term), `idf(q) = 0`
(no error) for terms absent from the corpus, `avgdl` = total tokens / `N`,
and `k1 = 1.2`, `b = 0.75`, `delta = 0.25` (`npLog` is the float `np.log`).
Repeated query tokens each contribute their own additive term.  The
hypothesis `0 < avgdl` excludes the degenerate corpus whose documents all
tokenize to zero tokens, where numpy's `0.0/0.0` would make the float
computation non-numeric. -/
theorem c4_bm25_scoring (npLog : ℚ → ℚ) (tok : String → List String)
    (corpus : List (List String)) (st : BM25Stats)
    (hinit : initStats npLog corpus = some st) (havg : 0 < st.avgdl)
    (query : String) (d : ℕ) (hd : d < corpus.length) :
    st.avgdl = (((corpus.map List.length).sum : ℕ) : ℚ) / (corpus.length : ℚ) ∧
    (get_scores st tok query).getD d 0 =
      ((tok query).map (fun q =>
        (if corpus.countP (fun doc => decide (q ∈ doc)) = 0 then 0
         else npLog (((corpus.length : ℚ) - (corpus.countP (fun doc => decide (q ∈ doc)) : ℚ) + 0.5) /
           ((corpus.countP (fun doc => decide (q ∈ doc)) : ℚ) + 0.5) + 1)) *
        (k1 + 1) *
        (((corpus.getD d []).count q : ℚ) /
            (1 - b + b * ((corpus.getD d []).length : ℚ) / st.avgdl) + delta) /
        (k1 + ((corpus.getD d []).count q : ℚ) /
            (1 - b + b * ((corpus.getD d []).length : ℚ) / st.avgdl) + delta))).sum := by
  simp only [initStats] at hinit
  by_cases hc0 : corpus.length = 0
  · rw [if_pos hc0] at hinit
    exact Option.noConfusion hinit
  · rw [if_neg hc0] at hinit
    have hfields := Option.some.inj hinit
    have hcs : st.corpus_size = corpus.length := by rw [← hfields]
    have hdfq : st.doc_freqs = corpus.map freqMap := by rw [← hfields]
    have hdlq : st.doc_len = corpus.map List.length := by rw [← hfields]
    have hidfq : st.idf = (ndMap corpus).map
        (fun p => (p.1, calculate_idf npLog p.2 corpus.length)) := by rw [← hfields]
    have havgq : st.avgdl = (((corpus.map List.length).sum : ℕ) : ℚ) / (corpus.length : ℚ) := by
      rw [← hfields]
    refine ⟨havgq, ?_⟩
    rw [get_scores_getD st tok query d (by rw [hcs]; exact hd)
      (by rw [hdfq, List.length_map, hcs]) (by rw [hdlq, List.length_map, hcs])]
    congr 1
    refine List.map_congr_left ?_
    intro q _
    have hfm : st.doc_freqs.getD d [] = freqMap (corpus.getD d []) := by
      rw [hdfq, List.getD_eq_getElem (corpus.map freqMap) []
          (by rw [List.length_map]; exact hd),
        List.getElem_map, ← List.getD_eq_getElem corpus [] hd]
    have hln : st.doc_len.getD d 0 = (corpus.getD d []).length := by
      rw [hdlq, List.getD_eq_getElem (corpus.map List.length) 0
          (by rw [List.length_map]; exact hd),
        List.getElem_map, ← List.getD_eq_getElem corpus [] hd]
    have hidf : (alookup st.idf q).getD 0 =
        (if corpus.countP (fun doc => decide (q ∈ doc)) = 0 then 0
         else npLog (((corpus.length : ℚ) - (corpus.countP (fun doc => decide (q ∈ doc)) : ℚ) + 0.5) /
           ((corpus.countP (fun doc => decide (q ∈ doc)) : ℚ) + 0.5) + 1)) := by
      rw [hidfq,
        alookup_map_snd (fun c : ℕ => calculate_idf npLog c corpus.length) (ndMap corpus) q]
      cases hnd : alookup (ndMap corpus) q with
      | none =>
        rw [if_pos ((ndMap_none corpus q).mp hnd)]
        rfl
      | some c =>
        have hcnt : c = corpus.countP (fun doc => decide (q ∈ doc)) := by
          have := ndMap_getD corpus q
          rw [hnd] at this
          exact this
        have hne0 : ¬ corpus.countP (fun doc => decide (q ∈ doc)) = 0 := by
          intro h0
          have := (ndMap_none corpus q).mpr h0
          rw [hnd] at this
          exact Option.noConfusion this
        rw [if_neg hne0]
        subst hcnt
        rfl
    rw [hfm, hln, hidf, freqMap_getD]

/-- Witness for C4: over the two-document corpus `[["x"], ["y"]]` with the
query tokenized as `["x", "x"]` (a repeated token), document 0 scores twice
the single-occurrence BM25+ term, `2 * (1 * 2.2 * 1.25 / 2.45) = 110/49`. -/
theorem c4_bm25_scoring_witness :
    (get_scores
      { corpus_size := 2, avgdl := 1, doc_freqs := [[("x", 1)], [("y", 1)]],
        idf := [("x", 1), ("y", 1)], doc_len := [1, 1], nd := 0 }
      (fun _ => ["x", "x"]) "q").getD 0 0 = 110/49 := by
  have h := c4_bm25_scoring (fun _ => 1) (fun _ => ["x", "x"]) [["x"], ["y"]]
    { corpus_size := 2, avgdl := 1, doc_freqs := [[("x", 1)], [("y", 1)]],
      idf := [("x", 1), ("y", 1)], doc_len := [1, 1], nd := 0 }
    (by simp [initStats, freqMap, foldIncr, incr, ndMap, calculate_idf])
    (by norm_num) "q" 0 (by norm_num)
  rw [h.2]
  norm_num [List.countP, List.countP.go, k1, b, delta]
  simp
  norm_num
